import Mathlib

/-!
Verification of the PDF evaluators in `pdf.py` (gamma, rayleigh, rice, k, hk).

The program is embedded shallowly.  Machine floating-point values are
modelled by the type `E`: either NaN, +Inf, -Inf, or a finite value
(represented exactly as a rational; rounding is irrelevant to the claims
checked here, which are about control flow, the NaN/Inf policy, residual
algebra and formula structure).  The external providers (scipy densities,
Bessel functions, `math.gamma`, `np.sqrt`, float `**`, and the adaptive
quadrature `integrate.quad`) are opaque in the source, so they appear as
fields of a `Provider` record over which all theorems quantify; concrete
instances are supplied only where a theorem or counterexample needs to
evaluate, and each such instance documents the real provider behaviour it
reenacts.
-/

/-- An IEEE-754-style value: NaN, plus or minus infinity, or a finite
number (modelled exactly as a rational). -/
inductive E where
  | nan : E
  | pinf : E
  | ninf : E
  | fl : ℚ → E
deriving DecidableEq, Repr

/-- IEEE/numpy negation. -/
def E.neg : E → E
  | E.nan => E.nan
  | E.pinf => E.ninf
  | E.ninf => E.pinf
  | E.fl q => E.fl (-q)

instance : Neg E := ⟨E.neg⟩

/-- IEEE/numpy addition: NaN propagates, opposite infinities give NaN. -/
def E.add : E → E → E
  | E.nan, _ => E.nan
  | _, E.nan => E.nan
  | E.pinf, E.ninf => E.nan
  | E.ninf, E.pinf => E.nan
  | E.pinf, _ => E.pinf
  | _, E.pinf => E.pinf
  | E.ninf, _ => E.ninf
  | _, E.ninf => E.ninf
  | E.fl a, E.fl b => E.fl (a + b)

instance : Add E := ⟨E.add⟩

/-- IEEE/numpy subtraction, as addition of the negation. -/
def E.sub (a b : E) : E := E.add a (E.neg b)

instance : Sub E := ⟨E.sub⟩

/-- IEEE/numpy multiplication: NaN propagates, zero times infinity is NaN. -/
def E.mul : E → E → E
  | E.nan, _ => E.nan
  | _, E.nan => E.nan
  | E.pinf, E.pinf => E.pinf
  | E.pinf, E.ninf => E.ninf
  | E.ninf, E.pinf => E.ninf
  | E.ninf, E.ninf => E.pinf
  | E.pinf, E.fl q => if q = 0 then E.nan else if 0 < q then E.pinf else E.ninf
  | E.fl q, E.pinf => if q = 0 then E.nan else if 0 < q then E.pinf else E.ninf
  | E.ninf, E.fl q => if q = 0 then E.nan else if 0 < q then E.ninf else E.pinf
  | E.fl q, E.ninf => if q = 0 then E.nan else if 0 < q then E.ninf else E.pinf
  | E.fl a, E.fl b => E.fl (a * b)

instance : Mul E := ⟨E.mul⟩

/-- IEEE/numpy division: NaN propagates, Inf/Inf is NaN, finite/Inf is 0,
finite/0 is a signed infinity (0/0 is NaN) as numpy produces with a
runtime warning. -/
def E.div : E → E → E
  | E.nan, _ => E.nan
  | _, E.nan => E.nan
  | E.pinf, E.pinf => E.nan
  | E.pinf, E.ninf => E.nan
  | E.ninf, E.pinf => E.nan
  | E.ninf, E.ninf => E.nan
  | E.pinf, E.fl q => if 0 ≤ q then E.pinf else E.ninf
  | E.ninf, E.fl q => if 0 ≤ q then E.ninf else E.pinf
  | E.fl _, E.pinf => E.fl 0
  | E.fl _, E.ninf => E.fl 0
  | E.fl a, E.fl b =>
      if b = 0 then (if a = 0 then E.nan else if 0 < a then E.pinf else E.ninf)
      else E.fl (a / b)

instance : Div E := ⟨E.div⟩

/-- The largest finite IEEE-754 double, 1.7976931348623157e308, the value
`np.nan_to_num` substitutes for +Inf. -/
def maxFloat : ℚ := 17976931348623157 * 10 ^ 292

/-- Embedding of `np.nan_to_num` with default arguments: NaN becomes 0,
+Inf becomes the largest finite double, -Inf its negation, and finite
values pass through. -/
def nanToNum : E → E
  | E.nan => E.fl 0
  | E.pinf => E.fl maxFloat
  | E.ninf => E.fl (-maxFloat)
  | E.fl q => E.fl q

/-- A parameter value as the lmfit-driven callers supply it: either a
plain float, or a boxed object exposing the float in a `.value` field. -/
inductive Val where
  | plain : E → Val
  | boxed : E → Val
deriving DecidableEq, Repr

/-- A parameter mapping: the Python dict passed as `params`. -/
abbrev Params := List (String × Val)

/-- Dictionary lookup, `params[key]`; `none` is the KeyError case. -/
def plookup : Params → String → Option Val
  | [], _ => none
  | (k, v) :: rest, key => if k = key then some v else plookup rest key

/-- The `if hasattr(v, 'value'): v = v.value` idiom: unwraps a boxed value
and leaves a plain float unchanged. -/
def unbox : Val → E
  | Val.plain e => e
  | Val.boxed e => e

/-- A parameter value used directly as a float without unwrapping, as
`rayleigh`, `rice` and `k` do.  The providers are specified for plain
floats only, so handing them a boxed object is modelled as failure. -/
def asFloat : Val → Option E
  | Val.plain e => some e
  | Val.boxed _ => none

/-- The external providers consumed by `pdf.py`, opaque to this core:
scipy densities, Bessel functions `jv`/`kv`, `np.sqrt`, float power,
`math.gamma`, and the adaptive quadrature over `[0, ∞)` returning an
estimate and an error estimate.  Quadrature sample points are taken
rational, matching the `E`-embedding of floats. -/
structure Provider where
  gammaPdf : E → E → E
  rayleighPdf : E → E → E
  ricePdf : E → E → E → E
  jv : ℚ → E → E
  kv : E → E → E
  sqrt : E → E
  pow : E → E → E
  gammaF : E → E
  quad : (ℚ → E) → E × E

/-- Output-selection policy shared by all five evaluators: density when
`data` is absent, `model - data` when only `data` is given, and
`(model - data)/eps` when both are given (elementwise, numpy style). -/
def applyOut (model : List E) (data eps : Option (List E)) : List E :=
  match data with
  | none => model
  | some d =>
    match eps with
    | none => List.zipWith (fun a b => a - b) model d
    | some e => List.zipWith (fun a b => a / b) (List.zipWith (fun a b => a - b) model d) e

/-- Scalar Gamma density call, `gamma(params, x)` at one point with the
density branch: reads `mu`, unwraps a boxed value, applies
`stats.gamma.pdf(x, mu, scale=1)` and `np.nan_to_num`. -/
def gamma1 (P : Provider) (ps : Params) (x : E) : Option E :=
  match plookup ps "mu" with
  | none => none
  | some v => some (nanToNum (P.gammaPdf x (unbox v)))

/-- Scalar Rice density call, `rice(params, x)` at one point with the
density branch: reads `a` and `s` (no unwrapping in the source), applies
`stats.rice.pdf(x, a/s, scale=s)` and `np.nan_to_num`. -/
def rice1 (P : Provider) (ps : Params) (x : E) : Option E :=
  match plookup ps "a", plookup ps "s" with
  | some va, some vs =>
      (asFloat va).bind fun a =>
        (asFloat vs).map fun s => nanToNum (P.ricePdf x (a / s) s)
  | _, _ => none

/-- The `gamma` evaluator of `pdf.py` over an input array. -/
def gamma (P : Provider) (ps : Params) (x : List E)
    (data eps : Option (List E)) : Option (List E) :=
  match plookup ps "mu" with
  | none => none
  | some v =>
      some (applyOut (x.map fun xi => nanToNum (P.gammaPdf xi (unbox v))) data eps)

/-- The `rayleigh` evaluator of `pdf.py` over an input array: reads `s`
without unwrapping. -/
def rayleigh (P : Provider) (ps : Params) (x : List E)
    (data eps : Option (List E)) : Option (List E) :=
  match plookup ps "s" with
  | none => none
  | some v =>
      (asFloat v).map fun s =>
        applyOut (x.map fun xi => nanToNum (P.rayleighPdf xi s)) data eps

/-- The `rice` evaluator of `pdf.py` over an input array: reads `a` and
`s` without unwrapping. -/
def rice (P : Provider) (ps : Params) (x : List E)
    (data eps : Option (List E)) : Option (List E) :=
  match plookup ps "a", plookup ps "s" with
  | some va, some vs =>
      (asFloat va).bind fun a =>
        (asFloat vs).map fun s =>
          applyOut (x.map fun xi => nanToNum (P.ricePdf xi (a / s) s)) data eps
  | _, _ => none

/-- The `k` evaluator of `pdf.py` over an input array: reads `s` and `mu`
without unwrapping, computes `b = sqrt(2*mu)/s` and
`2*(x/2)**mu * b**(mu+1) / gamma(mu) * kv(mu-1, b*x)`, left associated as
in the source, then `np.nan_to_num`. -/
def k (P : Provider) (ps : Params) (x : List E)
    (data eps : Option (List E)) : Option (List E) :=
  match plookup ps "s", plookup ps "mu" with
  | some vs, some vmu =>
      (asFloat vs).bind fun s =>
        (asFloat vmu).map fun mu =>
          let b := P.sqrt (E.fl 2 * mu) / s
          applyOut
            (x.map fun xi =>
              nanToNum (E.fl 2 * P.pow (xi / E.fl 2) mu * P.pow b (mu + E.fl 1)
                / P.gammaF mu * P.kv (mu - E.fl 1) (b * xi)))
            data eps
  | _, _ => none

/-- The inner `integrand(w, x, a, s, mu, method)` of `hk`: the analytic
Bessel kernel for `method='analytic'`, the product of a scalar `rice` call
and a scalar `gamma` call for `method='compound'`, and `None` (no return
statement reached) for any other method string. -/
def hkIntegrand (P : Provider) (method : String) (a s mu xi : E) (w : ℚ) : Option E :=
  if method = "analytic" then
    some (xi * E.fl w * P.jv 0 (E.fl w * a) * P.jv 0 (E.fl w * xi) *
      P.pow (E.fl 1 + P.pow (E.fl w) (E.fl 2) * P.pow s (E.fl 2) / (E.fl 2 * mu)) (-mu))
  else if method = "compound" then
    (rice1 P [("a", Val.plain a), ("s", Val.plain (s * P.sqrt (E.fl w / mu)))] xi).bind
      fun r => (gamma1 P [("mu", Val.plain mu)] (E.fl w)).map fun g => r * g
  else none

/-- The `hk` evaluator of `pdf.py`: reads and unwraps `a`, `s`, `mu`,
then for each point of the (flattened) input keeps the first component of
`integrate.quad(integrand, 0, inf)`.  For a method other than `analytic`
or `compound` the integrand returns `None` at every sample and the
quadrature raises, modelled as `none`; inside the valid branch the
integrand is provably `some`, so the `getD` default is never taken.  No
`np.nan_to_num` is applied to the collected model. -/
def hk (P : Provider) (ps : Params) (x : List E)
    (data eps : Option (List E)) (method : String) : Option (List E) :=
  match plookup ps "a", plookup ps "s", plookup ps "mu" with
  | some va, some vs, some vmu =>
      let a := unbox va
      let s := unbox vs
      let mu := unbox vmu
      if method = "analytic" ∨ method = "compound" then
        some (applyOut
          (x.map fun xi =>
            (P.quad fun w => (hkIntegrand P method a s mu xi w).getD E.nan).1)
          data eps)
      else none
  | _, _, _ => none

/-- The analytic integrand as the spec words it:
`x_i * w * J_0(w*a) * J_0(w*x_i) * (1 + w^2 s^2/(2 mu))^(-mu)`. -/
def specAnalyticIntegrand (P : Provider) (a s mu xi : E) (w : ℚ) : E :=
  xi * E.fl w * P.jv 0 (E.fl w * a) * P.jv 0 (E.fl w * xi) *
    P.pow (E.fl 1 + P.pow (E.fl w) (E.fl 2) * P.pow s (E.fl 2) / (E.fl 2 * mu)) (-mu)

/-- The compound integrand as the spec words it: the Rice evaluator called
at `x_i` with parameters `{a: a, s: s*sqrt(w/mu)}` times the Gamma
evaluator called at `w` with parameter `{mu: mu}`, both on the
density-output branch. -/
def specCompoundIntegrand (P : Provider) (a s mu xi : E) (w : ℚ) : E :=
  ((rice1 P [("a", Val.plain a), ("s", Val.plain (s * P.sqrt (E.fl w / mu)))] xi).getD E.nan) *
    ((gamma1 P [("mu", Val.plain mu)] (E.fl w)).getD E.nan)

/-- The K density formula as the spec words it:
`2 * (x/2)^mu * b^(mu+1) / Gamma(mu) * K_(mu-1)(b*x)` with
`b = sqrt(2*mu)/s`. -/
def kFormulaSpec (P : Provider) (s mu xi : E) : E :=
  let b := P.sqrt (E.fl 2 * mu) / s
  E.fl 2 * P.pow (xi / E.fl 2) mu * P.pow b (mu + E.fl 1)
    / P.gammaF mu * P.kv (mu - E.fl 1) (b * xi)

/-- A value a real density formula can produce: NaN, +Inf, or a
non-negative finite number (a probability density is never negative and
never -Inf). -/
def densityLike (e : E) : Prop :=
  e = E.nan ∨ e = E.pinf ∨ ∃ q : ℚ, 0 ≤ q ∧ e = E.fl q

/-- A non-negative finite value. -/
def nonnegFinite (e : E) : Prop := ∃ q : ℚ, 0 ≤ q ∧ e = E.fl q

/-- A plain computable provider used to instantiate witnesses: every
density and special function returns 1 and the quadrature returns the
integrand sampled at 1 with error 0. -/
def P0 : Provider where
  gammaPdf := fun _ _ => E.fl 1
  rayleighPdf := fun _ _ => E.fl 1
  ricePdf := fun _ _ _ => E.fl 1
  jv := fun _ _ => E.fl 1
  kv := fun _ _ => E.fl 1
  sqrt := fun _ => E.fl 1
  pow := fun _ _ => E.fl 1
  gammaF := fun _ => E.fl 1
  quad := fun f => (f 1, E.fl 0)

/-- Provider reenacting `scipy.stats.gamma.pdf(0, mu)` for `mu < 1`,
which is `+Inf` (the gamma density diverges at the origin for shape
below 1). -/
def PgammaInf : Provider :=
  { P0 with gammaPdf := fun _ _ => E.pinf }

/-- Provider reenacting a non-converging `integrate.quad` call on the
oscillatory analytic integrand, which returns NaN as both the estimate
and the error. -/
def PquadNan : Provider :=
  { P0 with quad := fun _ => (E.nan, E.nan) }

/-- Provider reenacting an inaccurate `integrate.quad` estimate of the
sign-indefinite analytic integrand (oscillating Bessel kernel): the
estimate comes out slightly negative. -/
def PquadNeg : Provider :=
  { P0 with quad := fun _ => (E.fl (-1 / 100), E.fl 1) }

/-- Provider reenacting float64 overflow in the K formula at `s = 1/4`,
`mu = 170`, `x = 1`: `b = sqrt(340)/s` is about `73.76`, and
`b**171` is about `1e319`, which overflows float64 to +Inf, while
`(x/2)**170` is about `6.4e-52`, `math.gamma(170)` about `4.27e304` and
`kv(169, 73.76)` about `1e39`, all finite and positive, so the product
(evaluated left to right as in the source) is +Inf. -/
def PkOverflow : Provider :=
  { P0 with
    sqrt := fun _ => E.fl (1844 / 100)
    pow := fun _ e => if e = E.fl 171 then E.pinf else E.fl (64 / 10 ^ 53)
    gammaF := fun _ => E.fl (427 * 10 ^ 302)
    kv := fun _ _ => E.fl (10 ^ 39) }

/-- Modelled from the spec: the modified Bessel function of the first
kind of order 0, by its power series, used by the external statistics
library's Rice density (the provider's source is not part of this
repository). -/
noncomputable def besselI0R (y : ℝ) : ℝ :=
  tsum fun n : ℕ => (y ^ 2 / 4) ^ n / ((Nat.factorial n : ℝ)) ^ 2

/-- Modelled from the spec: the standard Rice density provided by the
external statistics library, `stats.rice.pdf(x, b, scale=s)` with
location 0, i.e. `(x/s) * exp(-((x/s)^2 + b^2)/2) * I0((x/s)*b) / s` on
the support `x/s ≥ 0` and 0 elsewhere. -/
noncomputable def riceProviderPdf (x b s : ℝ) : ℝ :=
  if 0 ≤ x / s then
    (x / s) * Real.exp (-(((x / s) ^ 2 + b ^ 2) / 2)) * besselI0R ((x / s) * b) / s
  else 0

/-- Modelled from the spec: the standard Rayleigh density provided by the
external statistics library, `stats.rayleigh.pdf(x, scale=s)` with
location 0, i.e. `(x/s) * exp(-(x/s)^2/2) / s` on the support `x/s ≥ 0`
and 0 elsewhere. -/
noncomputable def rayleighProviderPdf (x s : ℝ) : ℝ :=
  if 0 ≤ x / s then (x / s) * Real.exp (-((x / s) ^ 2 / 2)) / s else 0

/-- The model the `rice` evaluator computes, at the real-valued provider
level: `stats.rice.pdf(x, a/s, scale=s)`. -/
noncomputable def riceModelR (a s x : ℝ) : ℝ := riceProviderPdf x (a / s) s

/-- The model the `rayleigh` evaluator computes, at the real-valued
provider level: `stats.rayleigh.pdf(x, scale=s)`. -/
noncomputable def rayleighModelR (s x : ℝ) : ℝ := rayleighProviderPdf x s

theorem maxFloat_nonneg : 0 ≤ maxFloat := by
  unfold maxFloat
  positivity

theorem maxFloat_ne_zero : maxFloat ≠ 0 := by
  unfold maxFloat
  positivity

theorem nanToNum_densityLike {e : E} (h : densityLike e) : nonnegFinite (nanToNum e) := by
  rcases h with h | h | ⟨q, hq, h⟩ <;> subst h
  · exact ⟨0, le_refl 0, rfl⟩
  · exact ⟨maxFloat, maxFloat_nonneg, rfl⟩
  · exact ⟨q, hq, rfl⟩

/-- C1: for every element of the flattened input, the Homodyne-K model
value is the adaptive-quadrature estimate over `[0, ∞)` of the
method-selected integrand, keeping only the integral estimate and
discarding the error estimate, aligned with the input order; with
`method='compound'` the integrand is the Rice evaluator at `x_i` with
`{a: a, s: s*sqrt(w/mu)}` times the Gamma evaluator at `w` with
`{mu: mu}` on the density branch, and with `method='analytic'` it is
`x_i * w * J_0(w*a) * J_0(w*x_i) * (1 + w^2 s^2/(2 mu))^(-mu)`. -/
theorem hk_quadrature_follows_spec (P : Provider) (a s mu : E) (x : List E) :
    hk P [("a", Val.plain a), ("s", Val.plain s), ("mu", Val.plain mu)] x none none "compound" =
      some (x.map fun xi => (P.quad fun w => specCompoundIntegrand P a s mu xi w).1) ∧
    hk P [("a", Val.plain a), ("s", Val.plain s), ("mu", Val.plain mu)] x none none "analytic" =
      some (x.map fun xi => (P.quad fun w => specAnalyticIntegrand P a s mu xi w).1) :=
  ⟨rfl, rfl⟩

/-- C9: when `data` is `None`, the `eps` argument is ignored by all five
evaluators: supplying any `eps` returns exactly the density. -/
theorem eps_ignored_when_no_data (P : Provider) (ps : Params) (x e : List E)
    (method : String) :
    gamma P ps x none (some e) = gamma P ps x none none ∧
    rayleigh P ps x none (some e) = rayleigh P ps x none none ∧
    rice P ps x none (some e) = rice P ps x none none ∧
    k P ps x none (some e) = k P ps x none none ∧
    hk P ps x none (some e) method = hk P ps x none none method :=
  ⟨rfl, rfl, rfl, rfl, rfl⟩

/-- C2 counterexample: the claim that any NaN or infinite value produced
by the density formula is replaced with 0 fails on the code: with
`mu = 1/2` the gamma density at `x = 0` is `+Inf` (reenacted by
`PgammaInf`), and `np.nan_to_num` turns it into the largest finite
double, not 0. -/
theorem nan_policy_counterexample :
    PgammaInf.gammaPdf (E.fl 0) (E.fl (1 / 2)) = E.pinf ∧
    gamma PgammaInf [("mu", Val.plain (E.fl (1 / 2)))] [E.fl 0] none none =
      some [E.fl maxFloat] ∧
    E.fl maxFloat ≠ E.fl 0 :=
  ⟨rfl, rfl, fun h => maxFloat_ne_zero (E.fl.inj h)⟩

/-- C2 amended: `gamma`, `rayleigh`, `rice` and `k` pass every density
value through `np.nan_to_num` before output selection, which sends NaN to
0 and plus or minus infinity to plus or minus the largest finite double;
`hk` applies no such replacement and its model is the raw quadrature
estimates. -/
theorem nan_policy_by_evaluator (P : Provider) (muv sv av : Val) (x : List E) :
    nanToNum E.nan = E.fl 0 ∧
    nanToNum E.pinf = E.fl maxFloat ∧
    nanToNum E.ninf = E.fl (-maxFloat) ∧
    gamma P [("mu", muv)] x none none =
      some (x.map fun xi => nanToNum (P.gammaPdf xi (unbox muv))) ∧
    rayleigh P [("s", sv)] x none none =
      ((asFloat sv).map fun s => x.map fun xi => nanToNum (P.rayleighPdf xi s)) ∧
    rice P [("a", av), ("s", sv)] x none none =
      ((asFloat av).bind fun a => (asFloat sv).map fun s =>
        x.map fun xi => nanToNum (P.ricePdf xi (a / s) s)) ∧
    k P [("s", sv), ("mu", muv)] x none none =
      ((asFloat sv).bind fun s => (asFloat muv).map fun mu =>
        x.map fun xi => nanToNum (kFormulaSpec P s mu xi)) ∧
    hk P [("a", av), ("s", sv), ("mu", muv)] x none none "compound" =
      some (x.map fun xi =>
        (P.quad fun w =>
          (hkIntegrand P "compound" (unbox av) (unbox sv) (unbox muv) xi w).getD E.nan).1) :=
  ⟨rfl, rfl, rfl, rfl, rfl, rfl, rfl, rfl⟩

/-- C4 counterexample: the claim that a NaN/Inf quadrature result is then
zeroed by the shared NaN policy fails on the code: with a non-converging
quadrature returning NaN (reenacted by `PquadNan`) the `hk` output keeps
the NaN, it is not replaced with 0. -/
theorem hk_no_nan_policy_counterexample :
    hk PquadNan [("a", Val.plain (E.fl 1)), ("s", Val.plain (E.fl 1)), ("mu", Val.plain (E.fl 2))]
        [E.fl 1, E.fl 2] none none "analytic" = some [E.nan, E.nan] ∧
    E.nan ≠ E.fl 0 :=
  ⟨rfl, by decide⟩

/-- C4 amended: for both valid methods the `hk` evaluator never aborts:
it returns one raw quadrature estimate per input point, in input order,
and the output has the same length as the input; a NaN/Inf estimate is
kept as-is (no NaN policy is applied inside `hk`). -/
theorem hk_processes_all_points (P : Provider) (av sv muv : Val) (x : List E) :
    hk P [("a", av), ("s", sv), ("mu", muv)] x none none "compound" =
      some (x.map fun xi =>
        (P.quad fun w =>
          (hkIntegrand P "compound" (unbox av) (unbox sv) (unbox muv) xi w).getD E.nan).1) ∧
    hk P [("a", av), ("s", sv), ("mu", muv)] x none none "analytic" =
      some (x.map fun xi =>
        (P.quad fun w =>
          (hkIntegrand P "analytic" (unbox av) (unbox sv) (unbox muv) xi w).getD E.nan).1) ∧
    (x.map fun xi =>
      (P.quad fun w =>
        (hkIntegrand P "compound" (unbox av) (unbox sv) (unbox muv) xi w).getD E.nan).1).length
      = x.length :=
  ⟨rfl, rfl, List.length_map x _⟩

theorem E.add_def (a b : E) : a + b = E.add a b := rfl

theorem E.sub_def (a b : E) : a - b = E.sub a b := rfl

theorem E.mul_def (a b : E) : a * b = E.mul a b := rfl

theorem E.div_def (a b : E) : a / b = E.div a b := rfl

theorem E.neg_def (a : E) : -a = E.neg a := rfl

/-- C5 amended: the K evaluator computes the model elementwise as
`2*(x/2)^mu * b^(mu+1) / Gamma(mu) * K_(mu-1)(b*x)` with
`b = sqrt(2*mu)/s`, and the result is 0 wherever the formula yields NaN;
an infinite formula value is replaced by plus or minus the largest finite
double (the `np.nan_to_num` behaviour), not by 0. -/
theorem k_formula_matches (P : Provider) (s mu : E) (x : List E) :
    k P [("s", Val.plain s), ("mu", Val.plain mu)] x none none =
      some (x.map fun xi => nanToNum (kFormulaSpec P s mu xi)) ∧
    nanToNum E.nan = E.fl 0 ∧ nanToNum E.pinf = E.fl maxFloat :=
  ⟨rfl, rfl, rfl⟩

/-- C5 counterexample: the claim that the K result is 0 wherever the
formula yields NaN or Inf fails on the code: at `s = 1/4`, `mu = 170`,
`x = 1` the formula overflows to +Inf (reenacted by `PkOverflow`), and
`np.nan_to_num` turns it into the largest finite double, not 0. -/
theorem k_overflow_counterexample :
    kFormulaSpec PkOverflow (E.fl (1 / 4)) (E.fl 170) (E.fl 1) = E.pinf ∧
    k PkOverflow [("s", Val.plain (E.fl (1 / 4))), ("mu", Val.plain (E.fl 170))]
        [E.fl 1] none none = some [E.fl maxFloat] ∧
    E.fl maxFloat ≠ E.fl 0 := by
  refine ⟨?_, ?_, fun h => maxFloat_ne_zero (E.fl.inj h)⟩
  · norm_num [kFormulaSpec, PkOverflow, P0, E.mul_def, E.add_def, E.div_def, E.neg_def,
      E.mul, E.add, E.div, E.neg]
  · norm_num [k, plookup, asFloat, applyOut, nanToNum, PkOverflow, P0, E.mul_def,
      E.add_def, E.div_def, E.neg_def, E.mul, E.add, E.div, E.neg,
      show ¬("s" = "mu") from by decide]

/-- C6 counterexample: the claim that every evaluator unwraps boxed
parameter values fails on the code: `rayleigh` uses `params['s']` with no
`hasattr(s, 'value')` check, so a boxed `s` reaches the density provider
unconverted and the call does not produce the plain-float result. -/
theorem boxed_rayleigh_counterexample :
    rayleigh P0 [("s", Val.boxed (E.fl 1))] [E.fl 1] none none = none ∧
    rayleigh P0 [("s", Val.plain (E.fl 1))] [E.fl 1] none none = some [E.fl 1] ∧
    (none : Option (List E)) ≠ some [E.fl 1] :=
  ⟨rfl, rfl, by decide⟩

/-- C6 amended: only the `gamma` evaluator (for `mu`) and the `hk`
evaluator (for `a`, `s`, `mu`) detect and unwrap boxed parameter values,
so for them a boxed value gives the same result as the plain float;
`rayleigh`, `rice` and `k` pass the parameter values to the density
routines without unwrapping, so boxed parameters are not supported
there. -/
theorem boxed_unwrapping_by_evaluator (P : Provider) (q qa qs qmu : E) (x : List E)
    (data eps : Option (List E)) (method : String) :
    gamma P [("mu", Val.boxed q)] x data eps =
      gamma P [("mu", Val.plain q)] x data eps ∧
    hk P [("a", Val.boxed qa), ("s", Val.boxed qs), ("mu", Val.boxed qmu)] x data eps method =
      hk P [("a", Val.plain qa), ("s", Val.plain qs), ("mu", Val.plain qmu)] x data eps method ∧
    rayleigh P [("s", Val.boxed q)] x data eps = none ∧
    rice P [("a", Val.boxed qa), ("s", Val.plain qs)] x data eps = none ∧
    rice P [("a", Val.plain qa), ("s", Val.boxed qs)] x data eps = none ∧
    k P [("s", Val.boxed q), ("mu", Val.plain qmu)] x data eps = none ∧
    k P [("s", Val.plain qs), ("mu", Val.boxed q)] x data eps = none :=
  ⟨rfl, rfl, rfl, rfl, rfl, rfl, rfl⟩

/-- C7 counterexample: the claim that every evaluator returns pointwise
non-negative finite values for valid parameters and `x ≥ 0` fails on the
code for `hk`: with `a=1, s=1, mu=2, x=[1]` and an inaccurate quadrature
estimate of the sign-indefinite oscillatory analytic integrand (reenacted
by `PquadNeg`), the returned value is negative, and no NaN policy is
applied to correct it. -/
theorem hk_negative_estimate_counterexample :
    hk PquadNeg [("a", Val.plain (E.fl 1)), ("s", Val.plain (E.fl 1)), ("mu", Val.plain (E.fl 2))]
        [E.fl 1] none none "analytic" = some [E.fl (-1 / 100)] ∧
    (-1 / 100 : ℚ) < 0 :=
  ⟨rfl, by norm_num⟩

/-- C7 amended: for `gamma`, `rayleigh`, `rice` and `k`, whenever the
underlying density formula only yields NaN, +Inf or non-negative finite
values (as a real density formula does), every model value returned with
`data=None` is non-negative and finite, because `np.nan_to_num` is
applied; the `hk` evaluator returns raw quadrature estimates with no such
guarantee. -/
theorem evaluators_nonneg_finite (P : Provider) (ps : Params) (x : List E)
    (hg : ∀ e1 e2, densityLike (P.gammaPdf e1 e2))
    (hr : ∀ e1 e2, densityLike (P.rayleighPdf e1 e2))
    (hc : ∀ e1 e2 e3, densityLike (P.ricePdf e1 e2 e3))
    (hkf : ∀ s mu xi, densityLike (kFormulaSpec P s mu xi)) :
    (∀ m, gamma P ps x none none = some m → ∀ y ∈ m, nonnegFinite y) ∧
    (∀ m, rayleigh P ps x none none = some m → ∀ y ∈ m, nonnegFinite y) ∧
    (∀ m, rice P ps x none none = some m → ∀ y ∈ m, nonnegFinite y) ∧
    (∀ m, k P ps x none none = some m → ∀ y ∈ m, nonnegFinite y) := by
  refine ⟨?_, ?_, ?_, ?_⟩
  · intro m hm y hy
    unfold gamma at hm
    rcases hv : plookup ps "mu" with _ | v
    · rw [hv] at hm; cases hm
    · rw [hv] at hm
      simp only [applyOut, Option.some.injEq] at hm
      subst hm
      rcases List.mem_map.mp hy with ⟨xi, _, h⟩
      exact h ▸ nanToNum_densityLike (hg xi (unbox v))
  · intro m hm y hy
    unfold rayleigh at hm
    rcases hv : plookup ps "s" with _ | v
    · rw [hv] at hm; cases hm
    · rw [hv] at hm
      rcases v with e | e
      · simp [asFloat, applyOut] at hm
        subst hm
        rcases List.mem_map.mp hy with ⟨xi, _, h⟩
        exact h ▸ nanToNum_densityLike (hr xi e)
      · simp [asFloat] at hm
  · intro m hm y hy
    unfold rice at hm
    rcases hva : plookup ps "a" with _ | va
    · rw [hva] at hm; cases hm
    · rcases hvs : plookup ps "s" with _ | vs
      · rw [hva, hvs] at hm; cases hm
      · rw [hva, hvs] at hm
        rcases va with ea | ea
        · rcases vs with es | es
          · simp [asFloat, applyOut] at hm
            subst hm
            rcases List.mem_map.mp hy with ⟨xi, _, h⟩
            exact h ▸ nanToNum_densityLike (hc xi (ea / es) es)
          · simp [asFloat] at hm
        · simp [asFloat] at hm
  · intro m hm y hy
    unfold k at hm
    rcases hvs : plookup ps "s" with _ | vs
    · rw [hvs] at hm; cases hm
    · rcases hvmu : plookup ps "mu" with _ | vmu
      · rw [hvs, hvmu] at hm; cases hm
      · rw [hvs, hvmu] at hm
        rcases vs with es | es
        · rcases vmu with emu | emu
          · simp [asFloat, applyOut] at hm
            subst hm
            rcases List.mem_map.mp hy with ⟨xi, _, h⟩
            exact h ▸ nanToNum_densityLike (hkf es emu xi)
          · simp [asFloat] at hm
        · simp [asFloat] at hm

/-- C3: for every evaluator, parameter mapping and input, with `data` of
matching shape and `eps` of matching shape with no zero entries,
`evaluate(params, x, data=d)` equals `evaluate(params, x) - d`
elementwise, and `evaluate(params, x, data=d, eps=e)` equals
`(evaluate(params, x) - d) / e` elementwise. -/
theorem residual_output_identities (P : Provider) (ps : Params) (x d e : List E)
    (method : String) (hd : d.length = x.length) (he : e.length = x.length)
    (hz : ∀ v ∈ e, v ≠ E.fl 0) :
    (gamma P ps x (some d) none =
      (gamma P ps x none none).map fun m => List.zipWith (fun a b => a - b) m d) ∧
    (gamma P ps x (some d) (some e) =
      (gamma P ps x none none).map fun m =>
        List.zipWith (fun a b => a / b) (List.zipWith (fun a b => a - b) m d) e) ∧
    (rayleigh P ps x (some d) none =
      (rayleigh P ps x none none).map fun m => List.zipWith (fun a b => a - b) m d) ∧
    (rayleigh P ps x (some d) (some e) =
      (rayleigh P ps x none none).map fun m =>
        List.zipWith (fun a b => a / b) (List.zipWith (fun a b => a - b) m d) e) ∧
    (rice P ps x (some d) none =
      (rice P ps x none none).map fun m => List.zipWith (fun a b => a - b) m d) ∧
    (rice P ps x (some d) (some e) =
      (rice P ps x none none).map fun m =>
        List.zipWith (fun a b => a / b) (List.zipWith (fun a b => a - b) m d) e) ∧
    (k P ps x (some d) none =
      (k P ps x none none).map fun m => List.zipWith (fun a b => a - b) m d) ∧
    (k P ps x (some d) (some e) =
      (k P ps x none none).map fun m =>
        List.zipWith (fun a b => a / b) (List.zipWith (fun a b => a - b) m d) e) ∧
    (hk P ps x (some d) none method =
      (hk P ps x none none method).map fun m => List.zipWith (fun a b => a - b) m d) ∧
    (hk P ps x (some d) (some e) method =
      (hk P ps x none none method).map fun m =>
        List.zipWith (fun a b => a / b) (List.zipWith (fun a b => a - b) m d) e) := by
  refine ⟨?_, ?_, ?_, ?_, ?_, ?_, ?_, ?_, ?_, ?_⟩
  · rcases hv : plookup ps "mu" with _ | v <;> simp [gamma, hv, applyOut]
  · rcases hv : plookup ps "mu" with _ | v <;> simp [gamma, hv, applyOut]
  · rcases hv : plookup ps "s" with _ | v
    · simp [rayleigh, hv]
    · rcases v with q | q <;> simp [rayleigh, hv, asFloat, applyOut]
  · rcases hv : plookup ps "s" with _ | v
    · simp [rayleigh, hv]
    · rcases v with q | q <;> simp [rayleigh, hv, asFloat, applyOut]
  · rcases hva : plookup ps "a" with _ | va
    · simp [rice, hva]
    · rcases hvs : plookup ps "s" with _ | vs
      · simp [rice, hva, hvs]
      · rcases va with qa | qa <;> rcases vs with qs | qs <;>
          simp [rice, hva, hvs, asFloat, applyOut]
  · rcases hva : plookup ps "a" with _ | va
    · simp [rice, hva]
    · rcases hvs : plookup ps "s" with _ | vs
      · simp [rice, hva, hvs]
      · rcases va with qa | qa <;> rcases vs with qs | qs <;>
          simp [rice, hva, hvs, asFloat, applyOut]
  · rcases hvs : plookup ps "s" with _ | vs
    · simp [k, hvs]
    · rcases hvmu : plookup ps "mu" with _ | vmu
      · simp [k, hvs, hvmu]
      · rcases vs with qs | qs <;> rcases vmu with qmu | qmu <;>
          simp [k, hvs, hvmu, asFloat, applyOut]
  · rcases hvs : plookup ps "s" with _ | vs
    · simp [k, hvs]
    · rcases hvmu : plookup ps "mu" with _ | vmu
      · simp [k, hvs, hvmu]
      · rcases vs with qs | qs <;> rcases vmu with qmu | qmu <;>
          simp [k, hvs, hvmu, asFloat, applyOut]
  · rcases hva : plookup ps "a" with _ | va
    · simp [hk, hva]
    · rcases hvs : plookup ps "s" with _ | vs
      · simp [hk, hva, hvs]
      · rcases hvmu : plookup ps "mu" with _ | vmu
        · simp [hk, hva, hvs, hvmu]
        · by_cases hm : method = "analytic" ∨ method = "compound" <;>
            simp [hk, hva, hvs, hvmu, hm, applyOut]
  · rcases hva : plookup ps "a" with _ | va
    · simp [hk, hva]
    · rcases hvs : plookup ps "s" with _ | vs
      · simp [hk, hva, hvs]
      · rcases hvmu : plookup ps "mu" with _ | vmu
        · simp [hk, hva, hvs, hvmu]
        · by_cases hm : method = "analytic" ∨ method = "compound" <;>
            simp [hk, hva, hvs, hvmu, hm, applyOut]

/-- C3 witness: the residual identities applied at a concrete provider,
parameter set, input, data and nonzero eps. -/
theorem residual_output_identities_witness :
    ([E.fl 0].length = [E.fl 1].length) ∧
    ([E.fl 1].length = [E.fl 1].length) ∧
    (∀ v ∈ [E.fl 1], v ≠ E.fl 0) ∧
    (gamma P0 [("a", Val.plain (E.fl 1)), ("s", Val.plain (E.fl 1)), ("mu", Val.plain (E.fl 1))]
        [E.fl 1] (some [E.fl 0]) none =
      (gamma P0 [("a", Val.plain (E.fl 1)), ("s", Val.plain (E.fl 1)), ("mu", Val.plain (E.fl 1))]
          [E.fl 1] none none).map fun m => List.zipWith (fun a b => a - b) m [E.fl 0]) :=
  ⟨rfl, rfl,
    fun v hv => by
      rcases List.mem_singleton.mp hv with rfl
      exact fun h => one_ne_zero (E.fl.inj h),
    (residual_output_identities P0
      [("a", Val.plain (E.fl 1)), ("s", Val.plain (E.fl 1)), ("mu", Val.plain (E.fl 1))]
      [E.fl 1] [E.fl 0] [E.fl 1] "compound" rfl rfl
      (fun v hv => by
        rcases List.mem_singleton.mp hv with rfl
        exact fun h => one_ne_zero (E.fl.inj h))).1⟩

/-- C10: for a method outside `analytic`/`compound` the integrand returns
no value (`None`) at every sample point, and the evaluation fails rather
than silently falling back to either formulation. -/
theorem invalid_method_no_fallback (P : Provider) (ps : Params) (x : List E)
    (m : String) (h1 : m ≠ "analytic") (h2 : m ≠ "compound")
    (a s mu xi : E) (w : ℚ) :
    hkIntegrand P m a s mu xi w = none ∧ hk P ps x none none m = none := by
  constructor
  · simp [hkIntegrand, h1, h2]
  · rcases hva : plookup ps "a" with _ | va
    · simp [hk, hva]
    · rcases hvs : plookup ps "s" with _ | vs
      · simp [hk, hva, hvs]
      · rcases hvmu : plookup ps "mu" with _ | vmu
        · simp [hk, hva, hvs, hvmu]
        · simp [hk, hva, hvs, hvmu, h1, h2]

/-- C10 witness: the invalid-method behaviour at the concrete method
string `hybrid`. -/
theorem invalid_method_no_fallback_witness :
    (("hybrid" : String) ≠ "analytic" ∧ ("hybrid" : String) ≠ "compound") ∧
    (hkIntegrand P0 "hybrid" (E.fl 1) (E.fl 1) (E.fl 1) (E.fl 1) 1 = none ∧
      hk P0 [("a", Val.plain (E.fl 1))] [E.fl 1] none none "hybrid" = none) :=
  ⟨⟨by decide, by decide⟩,
    invalid_method_no_fallback P0 [("a", Val.plain (E.fl 1))] [E.fl 1] "hybrid"
      (by decide) (by decide) (E.fl 1) (E.fl 1) (E.fl 1) (E.fl 1) 1⟩

theorem besselI0R_zero : besselI0R 0 = 1 := by
  unfold besselI0R
  rw [tsum_eq_single 0]
  · norm_num
  · intro n hn
    norm_num [zero_pow hn]

/-- C8: the Rice evaluator's density with `a = 0`, `s = 1` equals the
Rayleigh evaluator's density with `s = 1` at every input, the Rice
density being parameterized by shape `a/s` and scale `s`. -/
theorem rice_zero_shape_is_rayleigh (x : ℝ) : riceModelR 0 1 x = rayleighModelR 1 x := by
  unfold riceModelR rayleighModelR riceProviderPdf rayleighProviderPdf
  norm_num [besselI0R_zero]

/-- C7 witness: the non-negativity and finiteness guarantee applied at a
concrete provider whose densities return 1 everywhere, a concrete
parameter set and a concrete input. -/
theorem evaluators_nonneg_finite_witness :
    ((∀ e1 e2, densityLike (P0.gammaPdf e1 e2)) ∧
      (∀ e1 e2, densityLike (P0.rayleighPdf e1 e2)) ∧
      (∀ e1 e2 e3, densityLike (P0.ricePdf e1 e2 e3)) ∧
      (∀ s mu xi, densityLike (kFormulaSpec P0 s mu xi))) ∧
    (∀ m, gamma P0 [("a", Val.plain (E.fl 1)), ("s", Val.plain (E.fl 1)), ("mu", Val.plain (E.fl 1))]
        [E.fl 1] none none = some m → ∀ y ∈ m, nonnegFinite y) := by
  have h1 : ∀ e1 e2 : E, densityLike (P0.gammaPdf e1 e2) :=
    fun _ _ => Or.inr (Or.inr ⟨1, by norm_num, rfl⟩)
  have h2 : ∀ e1 e2 : E, densityLike (P0.rayleighPdf e1 e2) :=
    fun _ _ => Or.inr (Or.inr ⟨1, by norm_num, rfl⟩)
  have h3 : ∀ e1 e2 e3 : E, densityLike (P0.ricePdf e1 e2 e3) :=
    fun _ _ _ => Or.inr (Or.inr ⟨1, by norm_num, rfl⟩)
  have h4 : ∀ s mu xi : E, densityLike (kFormulaSpec P0 s mu xi) := by
    intro s mu xi
    refine Or.inr (Or.inr ⟨2, by norm_num, ?_⟩)
    norm_num [kFormulaSpec, P0, E.mul_def, E.div_def, E.mul, E.div]
  exact ⟨⟨h1, h2, h3, h4⟩,
    (evaluators_nonneg_finite P0
      [("a", Val.plain (E.fl 1)), ("s", Val.plain (E.fl 1)), ("mu", Val.plain (E.fl 1))]
      [E.fl 1] h1 h2 h3 h4).1⟩
